import Mathlib

/-!
Verification of the AutoTweet-Bot core against its specification.

The Python modules `src/utils/history_manager.py`, `src/utils/helpers.py`,
`src/content/content_manager.py` and the content generators are embedded
shallowly: file I/O becomes an explicit `FileState`, Python exceptions become
an `Except PyExc` monad, `random.*` draws become explicit oracle arguments,
floats become rationals, and strings become `String` / `List Char`.
-/

namespace AutoTweet

/-- Python exceptions that the embedded code can raise or catch. -/
inductive PyExc where
  | fileNotFound
  | permissionError
  | jsonDecodeError
  | nameError
  | zeroDivisionError
  | indexError
  | valueError
  | typeError
  deriving DecidableEq, Repr

/-- State of the on-disk history log as seen by `open` + `json.load`:
the file can be absent, present but not readable (e.g. permission denied),
readable but not valid JSON, or readable with parsed content `recs`. -/
inductive FileState (α : Type) where
  | missing
  | unreadable
  | malformed
  | valid (recs : α)
  deriving DecidableEq, Repr

/-- A history entry as stored in `history.json`.  Optional fields model
`dict.get`: `none` is an absent key.  Metrics are naturals, `success` a
boolean (the code only ever stores booleans there). -/
structure TweetRec where
  id : Option String := none
  content : Option String := none
  timestamp : Option String := none
  category : Option String := none
  success : Option Bool := none
  impressions : Option Nat := none
  likes : Option Nat := none
  retweets : Option Nat := none
  replies : Option Nat := none
  deriving DecidableEq, Repr

/-- `open(file, 'r')` followed by `json.load`: the exception each file state
produces, or the parsed records. -/
def readJson {α : Type} : FileState α → Except PyExc α
  | .missing => .error .fileNotFound
  | .unreadable => .error .permissionError
  | .malformed => .error .jsonDecodeError
  | .valid recs => .ok recs

/-- `HistoryManager.load_history` (`history_manager.py:47-54`): try to read
and parse the file; `except (FileNotFoundError, json.JSONDecodeError)`
returns `[]`; any other exception propagates. -/
def load_history (fs : FileState (List TweetRec)) : Except PyExc (List TweetRec) :=
  match readJson fs with
  | .ok h => .ok h
  | .error .fileNotFound => .ok []
  | .error .jsonDecodeError => .ok []
  | .error e => .error e

/-- The Python slice `history[-limit:]` for a non-negative `limit`:
for `limit = 0` it is `history[0:]`, the whole list; otherwise the last
`limit` elements (all of them when `limit ≥ length`). -/
def pyTailSlice {α : Type} (l : List α) (limit : Nat) : List α :=
  if limit = 0 then l else l.drop (l.length - limit)

/-- `HistoryManager.get_recent_tweets` (`history_manager.py:72-75`):
`return history[-limit:] if history else []`. -/
def get_recent_tweets (fs : FileState (List TweetRec)) (limit : Nat) :
    Except PyExc (List TweetRec) := do
  let history ← load_history fs
  return if history.isEmpty then [] else pyTailSlice history limit

/-- `ContentManager.get_tweet_history` (`content_manager.py:117-125`): read
the file directly and slice; `except Exception` returns `[]`. -/
def get_tweet_history (fs : FileState (List TweetRec)) (limit : Nat) :
    List TweetRec :=
  match (do
      let history ← readJson fs
      pure (pyTailSlice history limit) : Except PyExc (List TweetRec)) with
  | .ok l => l
  | .error _ => []

/-- C4 counterexample: on an unreadable (permission-denied) file,
`load_history` does not return an empty sequence — the `PermissionError`
raised by `open` is not in the caught exception tuple and propagates. -/
theorem load_history_unreadable_raises :
    load_history FileState.unreadable = Except.error PyExc.permissionError := rfl

/-- C4 (amended): `load_history` returns `[]` for a missing file and for
malformed content, returns the parsed records for a well-formed file, but
lets the error of an unreadable file escape. -/
theorem load_history_soft_except_unreadable (recs : List TweetRec) :
    load_history FileState.missing = Except.ok []
      ∧ load_history FileState.malformed = Except.ok []
      ∧ load_history (FileState.valid recs) = Except.ok recs
      ∧ load_history FileState.unreadable = Except.error PyExc.permissionError :=
  ⟨rfl, rfl, rfl, rfl⟩

/-- C9: for `limit ≥ 1`, `get_recent_tweets` and `get_tweet_history` return
the most recent `min limit length` records in chronological order, while for
`limit = 0` the Python slice `history[-0:]` is the whole history. -/
theorem recent_tweets_slice (h : List TweetRec) (limit : Nat) :
    (1 ≤ limit →
        get_recent_tweets (FileState.valid h) limit
            = Except.ok (h.drop (h.length - min limit h.length))
          ∧ get_tweet_history (FileState.valid h) limit
            = h.drop (h.length - min limit h.length))
      ∧ get_recent_tweets (FileState.valid h) 0 = Except.ok h
      ∧ get_tweet_history (FileState.valid h) 0 = h := by
  have hrec : ∀ lim, get_recent_tweets (FileState.valid h) lim
      = Except.ok (pyTailSlice h lim) := by
    intro lim
    rcases h with _ | ⟨a, t⟩
    · simp [get_recent_tweets, load_history, readJson, pyTailSlice, Except.bind]
    · simp [get_recent_tweets, load_history, readJson, Except.bind]
  have hhist : ∀ lim, get_tweet_history (FileState.valid h) lim
      = pyTailSlice h lim := by
    intro lim
    simp [get_tweet_history, readJson, Except.bind]
  have hdrop : ∀ lim, 1 ≤ lim →
      pyTailSlice h lim = h.drop (h.length - min lim h.length) := by
    intro lim hlim
    have hne : lim ≠ 0 := by omega
    simp only [pyTailSlice, hne, if_false]
    rcases le_total lim h.length with hle | hle
    · rw [min_eq_left hle]
    · rw [min_eq_right hle]
      have h1 : h.length - lim = 0 := Nat.sub_eq_zero_of_le hle
      rw [h1, Nat.sub_self]
  refine ⟨fun hlim => ⟨?_, ?_⟩, ?_, ?_⟩
  · rw [hrec limit, hdrop limit hlim]
  · rw [hhist limit, hdrop limit hlim]
  · rw [hrec 0]; rfl
  · rw [hhist 0]; rfl

/-- C9 witness at a concrete history of three records and `limit = 2`. -/
theorem recent_tweets_slice_witness :
    get_recent_tweets (FileState.valid [{ id := some "a" }, { id := some "b" },
        { id := some "c" }]) 2
      = Except.ok [{ id := some "b" }, { id := some "c" }] := by
  have h := (recent_tweets_slice
      [{ id := some "a" }, { id := some "b" }, { id := some "c" }] 2).1
      (by omega)
  simpa using h.1

/-! ## Statistics (`HistoryManager.get_statistics`, `history_manager.py:101-143`) -/

/-- A JSON value as stored in the statistics dict: a number (Python ints and
floats both become rationals), a string, or the nested category-count dict. -/
inductive JVal where
  | num (q : ℚ)
  | str (s : String)
  | obj (entries : List (String × Nat))
  deriving DecidableEq, Repr

/-- Python division on floats: raises `ZeroDivisionError` on a zero
denominator, otherwise returns the exact quotient. -/
def pyDiv (a b : ℚ) : Except PyExc ℚ :=
  if b = 0 then .error .zeroDivisionError else .ok (a / b)

/-- `t.get('likes', 0) + t.get('retweets', 0) + t.get('replies', 0)`. -/
def engagementsOf (t : TweetRec) : Nat :=
  t.likes.getD 0 + t.retweets.getD 0 + t.replies.getD 0

/-- `categories[cat] = categories.get(cat, 0) + 1` on an insertion-ordered
dict: bump an existing key in place, or append a new key at the end. -/
def bumpCount (l : List (String × Nat)) (k : String) : List (String × Nat) :=
  match l with
  | [] => [(k, 1)]
  | (k', n) :: rest =>
      if k' = k then (k', n + 1) :: rest else (k', n) :: bumpCount rest k

/-- The category-distribution loop of `get_statistics`
(`history_manager.py:128-131`). -/
def categoryCounts (history : List TweetRec) : List (String × Nat) :=
  history.foldl (fun acc t => bumpCount acc (t.category.getD "unknown")) []

/-- `HistoryManager.get_statistics` (`history_manager.py:101-143`), with
`datetime.now().isoformat()` passed in as `now`.  The empty-history early
return is the literal dict of `history_manager.py:106-114`. -/
def get_statistics (fs : FileState (List TweetRec)) (now : String) :
    Except PyExc (List (String × JVal)) :=
  match load_history fs with
  | .error e => .error e
  | .ok history =>
    if history.isEmpty then
      .ok [("total_tweets", .num 0), ("successful_tweets", .num 0),
        ("failed_tweets", .num 0), ("success_rate", .num 0),
        ("total_impressions", .num 0), ("total_engagements", .num 0),
        ("categories", .obj [])]
    else
      let total : Nat := history.length
      let successful : Nat := (history.filter (fun t => t.success.getD false)).length
      let failed : Nat := total - successful
      let total_impressions : Nat := (history.map (fun t => t.impressions.getD 0)).sum
      let total_engagements : Nat := (history.map engagementsOf).sum
      match (if total > 0 then pyDiv (successful : ℚ) (total : ℚ) else .ok 0 :
          Except PyExc ℚ) with
      | .error e => .error e
      | .ok success_rate =>
        match (if total_impressions > 0 then
            pyDiv (total_engagements : ℚ) (total_impressions : ℚ)
          else .ok 0 : Except PyExc ℚ) with
        | .error e => .error e
        | .ok engagement_rate =>
          .ok [("total_tweets", .num total),
            ("successful_tweets", .num successful),
            ("failed_tweets", .num failed),
            ("success_rate", .num success_rate),
            ("total_impressions", .num total_impressions),
            ("total_engagements", .num total_engagements),
            ("engagement_rate", .num engagement_rate),
            ("categories", .obj (categoryCounts history)),
            ("last_updated", .str now)]

/-- On a non-empty history `get_statistics` returns the nine-key dict with
the guarded quotients evaluated. -/
theorem get_statistics_cons (t0 : TweetRec) (rest : List TweetRec) (now : String) :
    get_statistics (FileState.valid (t0 :: rest)) now
      = Except.ok [("total_tweets", .num ((t0 :: rest).length : ℚ)),
          ("successful_tweets",
            .num (((t0 :: rest).filter (fun t => t.success.getD false)).length : ℚ)),
          ("failed_tweets",
            .num (((t0 :: rest).length
              - ((t0 :: rest).filter (fun t => t.success.getD false)).length : Nat) : ℚ)),
          ("success_rate",
            .num ((((t0 :: rest).filter (fun t => t.success.getD false)).length : ℚ)
              / ((t0 :: rest).length : ℚ))),
          ("total_impressions",
            .num ((((t0 :: rest).map (fun t => t.impressions.getD 0)).sum : Nat) : ℚ)),
          ("total_engagements", .num ((((t0 :: rest).map engagementsOf).sum : Nat) : ℚ)),
          ("engagement_rate",
            .num (if ((t0 :: rest).map (fun t => t.impressions.getD 0)).sum = 0 then 0
              else (((((t0 :: rest).map engagementsOf).sum : Nat) : ℚ)
                / ((((t0 :: rest).map (fun t => t.impressions.getD 0)).sum : Nat) : ℚ)))),
          ("categories", .obj (categoryCounts (t0 :: rest))),
          ("last_updated", .str now)] := by
  have hlen : 0 < (t0 :: rest).length := Nat.succ_pos _
  have hlenQ : ¬(((t0 :: rest).length : ℚ) = 0) :=
    Nat.cast_ne_zero.mpr (Nat.pos_iff_ne_zero.mp hlen)
  by_cases himp : ((t0 :: rest).map (fun t => t.impressions.getD 0)).sum = 0
  · simp only [get_statistics, load_history, readJson, List.isEmpty_cons,
      Bool.false_eq_true, if_false, hlen, if_true, pyDiv, hlenQ, himp,
      Nat.lt_irrefl, Nat.cast_zero, eq_self_iff_true, Except.ok.injEq]
  · have hpos : 0 < ((t0 :: rest).map (fun t => t.impressions.getD 0)).sum :=
      Nat.pos_of_ne_zero himp
    have himpQ :
        ¬(((((t0 :: rest).map (fun t => t.impressions.getD 0)).sum : Nat) : ℚ) = 0) :=
      Nat.cast_ne_zero.mpr himp
    simp only [get_statistics, load_history, readJson, List.isEmpty_cons,
      Bool.false_eq_true, if_false, hlen, hpos, if_true, pyDiv, hlenQ, himp,
      himpQ, Except.ok.injEq]

/-- C3 counterexample: on the empty history the dict returned by
`get_statistics` has no `engagement_rate` key at all (the early return of
`history_manager.py:106-114` omits it), so not every numeric field of the
stated result shape is present. -/
theorem stats_empty_missing_engagement_rate :
    (get_statistics (FileState.valid []) "t").map
        (fun l => List.lookup "engagement_rate" l)
      = Except.ok none := rfl

/-- C3 (amended): `get_statistics` never divides by zero — on the empty
history it returns all-zero values for the six numeric keys it emits, but
the `engagement_rate` key is absent; on a non-empty history `success_rate`
is `successCount/totalCount` and `engagement_rate` is
`totalEngagements/totalImpressions` with `0` when `totalImpressions = 0`. -/
theorem stats_rates (t0 : TweetRec) (rest : List TweetRec) (now : String) :
    (∃ l, get_statistics (FileState.valid []) now = Except.ok l
        ∧ List.lookup "total_tweets" l = some (JVal.num 0)
        ∧ List.lookup "successful_tweets" l = some (JVal.num 0)
        ∧ List.lookup "failed_tweets" l = some (JVal.num 0)
        ∧ List.lookup "success_rate" l = some (JVal.num 0)
        ∧ List.lookup "total_impressions" l = some (JVal.num 0)
        ∧ List.lookup "total_engagements" l = some (JVal.num 0)
        ∧ List.lookup "engagement_rate" l = none)
      ∧ ∃ l, get_statistics (FileState.valid (t0 :: rest)) now = Except.ok l
        ∧ List.lookup "success_rate" l
            = some (JVal.num
                ((((t0 :: rest).filter (fun t => t.success.getD false)).length : ℚ)
                  / ((t0 :: rest).length : ℚ)))
        ∧ List.lookup "engagement_rate" l
            = some (JVal.num
                (if ((t0 :: rest).map (fun t => t.impressions.getD 0)).sum = 0 then 0
                 else (((((t0 :: rest).map engagementsOf).sum : Nat) : ℚ)
                   / ((((t0 :: rest).map (fun t => t.impressions.getD 0)).sum : Nat) : ℚ)))) := by
  refine ⟨⟨_, rfl, rfl, rfl, rfl, rfl, rfl, rfl, rfl⟩,
    ⟨_, get_statistics_cons t0 rest now, rfl, rfl⟩⟩

/-! ## Recording (`ContentManager.record_tweet`, `HistoryManager.add_tweet`) -/

/-- The module-level names bound by `content_manager.py` lines 1-13:
its import statements (`json`, `random`, `logging`, the typing names,
`Path`, `ScheduleConfig`, the four generator classes) plus the module
globals `logger` and `ContentManager`.  `datetime` is not among them. -/
def contentManagerGlobals : List String :=
  ["json", "random", "logging", "Dict", "Any", "List", "Optional", "Path",
   "ScheduleConfig", "CryptoGenerator", "FunnyGenerator", "FinanceGenerator",
   "SocialGenerator", "logger", "ContentManager"]

/-- Evaluating a bare name in `content_manager.py`: a name not bound at
module level raises `NameError`. -/
def evalGlobal (n : String) : Except PyExc Unit :=
  if n ∈ contentManagerGlobals then .ok () else .error .nameError

/-- `content.lower()`. -/
def pyLower (s : String) : String := s.map Char.toLower

/-- Python's `needle in haystack` on strings: substring containment. -/
def pyIn (needle haystack : String) : Bool :=
  decide (List.IsInfix needle.toList haystack.toList)

/-- `ContentManager._detect_category` (`content_manager.py:102-115`). -/
def detect_category (content : String) : String :=
  let cl := pyLower content
  if ["crypto", "bitcoin", "ethereum", "blockchain"].any (fun w => pyIn w cl) then
    "crypto"
  else if ["joke", "funny", "humor", "laugh"].any (fun w => pyIn w cl) then
    "funny"
  else if ["finance", "invest", "money", "stock"].any (fun w => pyIn w cl) then
    "finance"
  else if ["social", "sociology", "society", "community"].any (fun w => pyIn w cl) then
    "social"
  else "general"

/-- `ContentManager.record_tweet` (`content_manager.py:76-100`).  The body
runs under `try`: read the log, build the record dict — whose `timestamp`
value evaluates the bare name `datetime` before anything else interesting
happens — append it, trim to the last 100 with `history[-100:]`, rewrite
the file.  `except Exception` logs the error and leaves the file as it
was.  `now` stands for what `datetime.now().isoformat()` would return. -/
def record_tweet (fs : FileState (List TweetRec)) (tweet_id content now : String) :
    FileState (List TweetRec) :=
  match (do
      let history ← readJson fs
      let _ ← evalGlobal "datetime"
      let record : TweetRec :=
        { id := some tweet_id, content := some content, timestamp := some now,
          category := some (detect_category content) }
      let history := history ++ [record]
      let history := if history.length > 100 then
          history.drop (history.length - 100)
        else history
      pure history : Except PyExc (List TweetRec)) with
  | .ok newHistory => FileState.valid newHistory
  | .error _ => fs

/-- `record_tweet` is a no-op on the log: evaluating `datetime.now()`
raises `NameError` (the module never imports `datetime`), which the
`except Exception` handler swallows before the append. -/
theorem record_tweet_eq_self (fs : FileState (List TweetRec))
    (tweet_id content now : String) : record_tweet fs tweet_id content now = fs := by
  cases fs <;> rfl

/-- C1: contrary to the claim, a firing whose result has `success = true`
appends nothing — every call of `record_tweet` leaves the on-disk history
exactly as it was, because the unimported name `datetime` raises a
`NameError` that the handler swallows. -/
theorem post_success_appends_nothing (fs : FileState (List TweetRec))
    (tweet_id content now : String) : record_tweet fs tweet_id content now = fs :=
  record_tweet_eq_self fs tweet_id content now

/-- `HistoryManager.add_tweet` (`history_manager.py:30-45`): load, append,
trim to the last 1000, save; returns the success flag.  A load failure not
caught inside `load_history` lands in `add_tweet`'s own `except`, which
returns `False` and leaves the file unchanged (`save_history`'s write is
modelled as always succeeding). -/
def add_tweet (fs : FileState (List TweetRec)) (tweet_data : TweetRec) :
    FileState (List TweetRec) × Bool :=
  match load_history fs with
  | .error _ => (fs, false)
  | .ok history =>
    let history := history ++ [tweet_data]
    let history := if history.length > 1000 then
        history.drop (history.length - 1000)
      else history
    (FileState.valid history, true)

/-- The generic store keeps its cap: one `add_tweet` on a within-cap log
stays within the 1000-record cap, and an over-full append keeps exactly
the most recent 1000. -/
theorem add_tweet_cap (h : List TweetRec) (x : TweetRec) (hle : h.length ≤ 1000) :
    ∃ l, (add_tweet (FileState.valid h) x).1 = FileState.valid l
      ∧ l.length ≤ 1000 := by
  have hadd : (add_tweet (FileState.valid h) x).1
      = FileState.valid (if (h ++ [x]).length > 1000 then
          (h ++ [x]).drop ((h ++ [x]).length - 1000)
        else (h ++ [x])) := rfl
  by_cases hlen : (h ++ [x]).length > 1000
  · refine ⟨(h ++ [x]).drop ((h ++ [x]).length - 1000), ?_, ?_⟩
    · rw [hadd, if_pos hlen]
    · simp only [List.length_drop]; omega
  · refine ⟨h ++ [x], ?_, ?_⟩
    · rw [hadd, if_neg hlen]
    · have hx : (h ++ [x]).length = h.length + 1 := by simp
      omega

/-- C7: the live-bot path never trims to the most recent 100 because it
never appends — 150 successive `record_tweet` calls starting from an empty
log leave the log empty (each one dies on the `datetime` `NameError`),
instead of leaving the most recent 100 records. -/
theorem record_cap_never_materializes :
    Nat.iterate (fun fs => record_tweet fs "id_1" "hello world" "2025-01-01T00:00:00")
        150 (FileState.valid ([] : List TweetRec))
      = FileState.valid ([] : List TweetRec) :=
  Function.iterate_fixed (record_tweet_eq_self _ "id_1" "hello world" "2025-01-01T00:00:00") 150

/-! ## Cleanup (`HistoryManager.cleanup_old_tweets`, `history_manager.py:145-168`)

`datetime.fromisoformat` is abstracted as `parse`, with `none` for a
`ValueError` and the time line collapsed to `Int`, but keeping the
naive/offset-aware distinction: an offset-bearing string — such as the one
the code itself manufactures by rewriting `'Z'` to `'+00:00'` — parses to
an *aware* datetime.  The cutoff `datetime.now() - timedelta(days=...)` is
*naive*, and Python raises `TypeError` when ordering an aware datetime
against a naive one; that exception is not in the per-record
`except (ValueError, AttributeError)` tuple and aborts the whole loop. -/

/-- Result of `datetime.fromisoformat`: a naive or an offset-aware
datetime. -/
inductive ParsedDateTime where
  | naive (d : Int)
  | aware (d : Int)
  deriving DecidableEq, Repr

/-- `ts.replace('Z', '+00:00')` (`history_manager.py:155`): every
occurrence of the character `'Z'` becomes `"+00:00"`. -/
def replaceZ (ts : String) : String :=
  String.mk (ts.toList.flatMap fun c => if c = 'Z' then "+00:00".toList else [c])

/-- The filtering loop of `cleanup_old_tweets` (`history_manager.py:152-160`).
Per record, under `try`: a missing timestamp raises `AttributeError` on
`.replace` and the record is kept; an unparseable one raises `ValueError`
and is kept; a naive parsed date is kept exactly when
`tweet_date >= cutoff_date`; an aware parsed date raises `TypeError` at
that comparison, which the handler does not catch, so the loop aborts. -/
def cleanup_filter (parse : String → Option ParsedDateTime) (cutoff : Int) :
    List TweetRec → Except PyExc (List TweetRec)
  | [] => .ok []
  | t :: rest =>
    match t.timestamp with
    | none => do
      let tail ← cleanup_filter parse cutoff rest
      pure (t :: tail)
    | some ts =>
      match parse (replaceZ ts) with
      | none => do
        let tail ← cleanup_filter parse cutoff rest
        pure (t :: tail)
      | some (.naive d) =>
        if cutoff ≤ d then do
          let tail ← cleanup_filter parse cutoff rest
          pure (t :: tail)
        else cleanup_filter parse cutoff rest
      | some (.aware _) => .error .typeError

/-- `HistoryManager.cleanup_old_tweets` (`history_manager.py:145-168`):
load, filter, save, return the number of removed records; an uncaught
`TypeError` from the loop propagates and nothing is saved. -/
def cleanup_old_tweets (parse : String → Option ParsedDateTime) (cutoff : Int)
    (fs : FileState (List TweetRec)) :
    Except PyExc (FileState (List TweetRec) × Nat) := do
  let history ← load_history fs
  let filtered ← cleanup_filter parse cutoff history
  pure (FileState.valid filtered, history.length - filtered.length)

/-- A concrete `datetime.fromisoformat` oracle for the C10 counterexample
and witness, reflecting the real function's behavior: an offset-bearing
string (here the one the code's own `'Z' → '+00:00'` rewrite produces)
parses to an offset-aware datetime, a bare ISO string to a naive one,
anything else to a `ValueError`. -/
def parseSample : String → Option ParsedDateTime := fun s =>
  if s = "2020-01-01T00:00:00+00:00" then some (.aware 0)
  else if s = "2024-01-01T00:00:00" then some (.naive 50)
  else if s = "2025-06-01T00:00:00" then some (.naive 200)
  else none

/-- C10 counterexample: on a history holding one record whose
`'Z'`-suffixed timestamp is strictly older than the cutoff, the claim says
cleanup removes it and returns; instead the code's own rewrite hands
`fromisoformat` an offset string, the parsed datetime is offset-aware, its
comparison with the naive cutoff raises `TypeError`, and
`cleanup_old_tweets` crashes without filtering or saving anything. -/
theorem cleanup_crashes_on_aware_timestamp :
    cleanup_old_tweets parseSample 100
        (FileState.valid [{ timestamp := some "2020-01-01T00:00:00Z" }])
      = Except.error PyExc.typeError := rfl

/-- A record is aware-free under `parse` when its timestamp does not parse
to an offset-aware datetime, so the code's comparison cannot raise. -/
def awareFree (parse : String → Option ParsedDateTime) (t : TweetRec) : Bool :=
  match t.timestamp with
  | none => true
  | some ts =>
    match parse (replaceZ ts) with
    | some (.aware _) => false
    | _ => true

/-- The record-retention predicate of C10 on aware-free records: keep a
record when its timestamp is missing, unparseable, or parses to a date at
or after the cutoff (the aware arm is unreachable for aware-free
records). -/
def keepsRecord (parse : String → Option ParsedDateTime) (cutoff : Int)
    (t : TweetRec) : Bool :=
  match t.timestamp with
  | none => true
  | some ts =>
    match parse (replaceZ ts) with
    | none => true
    | some (.naive d) => decide (cutoff ≤ d)
    | some (.aware _) => true

theorem cleanup_filter_eq_filter (parse : String → Option ParsedDateTime)
    (cutoff : Int) (h : List TweetRec)
    (haf : ∀ t ∈ h, awareFree parse t = true) :
    cleanup_filter parse cutoff h
      = Except.ok (h.filter (keepsRecord parse cutoff)) := by
  induction h with
  | nil => rfl
  | cons t rest ih =>
    have hhead : awareFree parse t = true := haf t (List.mem_cons_self t rest)
    have ihr := ih (fun x hx => haf x (List.mem_cons_of_mem t hx))
    rcases hts : t.timestamp with _ | ts
    · simp [cleanup_filter, keepsRecord, hts, ihr, List.filter_cons, Except.bind]
    · rcases hp : parse (replaceZ ts) with _ | (d | d)
      · simp [cleanup_filter, keepsRecord, hts, hp, ihr, List.filter_cons,
          Except.bind]
      · by_cases hc : cutoff ≤ d
        · simp [cleanup_filter, keepsRecord, hts, hp, hc, ihr, List.filter_cons,
            Except.bind]
        · simp [cleanup_filter, keepsRecord, hts, hp, hc, ihr, List.filter_cons,
            Except.bind]
      · exfalso
        have : awareFree parse t = false := by
          simp [awareFree, hts, hp]
        rw [this] at hhead
        exact Bool.false_ne_true hhead

/-- C10 (amended): as long as no record's timestamp parses to an
offset-aware datetime, `cleanup_old_tweets` retains exactly the records
whose timestamp is missing, unparseable, or parses to a date not strictly
older than the cutoff (removing exactly the strictly-older parseable
ones), preserves the relative order of retained records, and reports the
number removed; but a single offset-aware timestamp — e.g. any
`'Z'`-suffixed one, which the code itself rewrites into an offset — makes
the naive-vs-aware comparison raise an uncaught `TypeError` that aborts
cleanup without saving. -/
theorem cleanup_removes_exactly_older (parse : String → Option ParsedDateTime)
    (cutoff : Int) (h : List TweetRec)
    (haf : ∀ t ∈ h, awareFree parse t = true) :
    cleanup_old_tweets parse cutoff (FileState.valid h)
        = Except.ok (FileState.valid (h.filter (keepsRecord parse cutoff)),
            h.length - (h.filter (keepsRecord parse cutoff)).length)
      ∧ (h.filter (keepsRecord parse cutoff)).Sublist h := by
  constructor
  · have hrun : ∀ fl, cleanup_filter parse cutoff h = Except.ok fl →
        cleanup_old_tweets parse cutoff (FileState.valid h)
          = Except.ok (FileState.valid fl, h.length - fl.length) := by
      intro fl hfl
      have hdo : cleanup_old_tweets parse cutoff (FileState.valid h)
          = cleanup_filter parse cutoff h >>= fun filtered =>
              pure (FileState.valid filtered, h.length - filtered.length) := rfl
      rw [hdo, hfl]
      rfl
    exact hrun _ (cleanup_filter_eq_filter parse cutoff h haf)
  · exact List.filter_sublist h

/-- C10 amended-theorem witness: a concrete aware-free history of an old
naive record, a recent naive record and a timestamp-less record. -/
theorem cleanup_removes_exactly_older_witness :
    cleanup_old_tweets parseSample 100
        (FileState.valid [{ timestamp := some "2024-01-01T00:00:00" },
          { timestamp := some "2025-06-01T00:00:00" }, {}])
        = Except.ok (FileState.valid
            (List.filter (keepsRecord parseSample 100)
              [{ timestamp := some "2024-01-01T00:00:00" },
                { timestamp := some "2025-06-01T00:00:00" }, {}]),
            ([{ timestamp := some "2024-01-01T00:00:00" },
              { timestamp := some "2025-06-01T00:00:00" },
              ({} : TweetRec)]).length
              - (List.filter (keepsRecord parseSample 100)
                  [{ timestamp := some "2024-01-01T00:00:00" },
                    { timestamp := some "2025-06-01T00:00:00" }, {}]).length)
      ∧ (List.filter (keepsRecord parseSample 100)
            [{ timestamp := some "2024-01-01T00:00:00" },
              { timestamp := some "2025-06-01T00:00:00" }, {}]).Sublist
          [{ timestamp := some "2024-01-01T00:00:00" },
            { timestamp := some "2025-06-01T00:00:00" }, {}] :=
  cleanup_removes_exactly_older parseSample 100
    [{ timestamp := some "2024-01-01T00:00:00" },
      { timestamp := some "2025-06-01T00:00:00" }, {}] (by decide)

/-! ## Trimming (`ContentManager._trim_tweet`, `content_manager.py:54-74`) -/

/-- Word characters, the `\w` class of the hashtag regex `#\w+` (ASCII
alphanumerics and underscore; Python's `re` additionally matches other
Unicode word characters — the choice of predicate is irrelevant to the
length properties proved below). -/
def isWordChar (c : Char) : Bool := c.isAlphanum || c = '_'

/-- One left-to-right pass computing both `re.findall(r'#\w+', tweet)`
(first component: the word characters following each `#`) and
`re.sub(r'#\w+', '', tweet)` (second component).  A `#` not followed by at
least one word character matches nothing and stays in the body; matches
are non-overlapping and `\w+` is greedy. -/
def scanTags : List Char → List (List Char) × List Char
  | [] => ([], [])
  | c :: rest =>
    if c = '#' then
      let w := rest.takeWhile isWordChar
      if w.isEmpty then
        let p := scanTags rest
        (p.1, c :: p.2)
      else
        let p := scanTags (rest.drop w.length)
        (w :: p.1, p.2)
    else
      let p := scanTags rest
      (p.1, c :: p.2)
termination_by l => l.length
decreasing_by
  all_goals simp only [List.length_drop, List.length_cons]
  all_goals omega

/-- Python `str.strip()`: drop leading and trailing whitespace. -/
def pyStrip (l : List Char) : List Char :=
  ((l.dropWhile Char.isWhitespace).reverse.dropWhile Char.isWhitespace).reverse

/-- The Python slice `l[:k]` for an integer `k`: clamps at both ends, and
a negative `k` counts from the end of the list. -/
def pySliceTo (l : List Char) (k : Int) : List Char :=
  if 0 ≤ k then l.take k.toNat else l.take (l.length - (-k).toNat)

/-- `' '.join(parts)`. -/
def joinSpace (parts : List (List Char)) : List Char :=
  List.intercalate [' '] parts

/-- `ContentManager._trim_tweet` (`content_manager.py:54-74`): return short
text unchanged; otherwise split off the hashtags, and in three tiers
reattach them after dropping only outer whitespace, truncate the body to
the space left by the hashtags plus `'...'`, or — when the hashtags leave
at most 20 characters — truncate the original text to `max_length - 3`
plus `'...'`. -/
def trimTweet (tweet : List Char) (max_length : Nat) : List Char :=
  if tweet.length ≤ max_length then tweet
  else
    let hashtags := (scanTags tweet).1.map (fun w => '#' :: w)
    let tweet_without_hashtags := pyStrip (scanTags tweet).2
    let hashtags_text := if hashtags.isEmpty then [] else joinSpace hashtags
    if tweet_without_hashtags.length + hashtags_text.length + 1 ≤ max_length then
      pyStrip (tweet_without_hashtags ++ ' ' :: hashtags_text)
    else
      let available_length : Int := (max_length : Int) - hashtags_text.length - 1
      if 20 < available_length then
        let trimmed_text := pySliceTo tweet_without_hashtags (available_length - 3)
          ++ ['.', '.', '.']
        pyStrip (trimmed_text ++ ' ' :: hashtags_text)
      else
        pySliceTo tweet ((max_length : Int) - 3) ++ ['.', '.', '.']

theorem length_pyStrip_le (l : List Char) : (pyStrip l).length ≤ l.length := by
  have h1 : (l.dropWhile Char.isWhitespace).length ≤ l.length :=
    (List.dropWhile_suffix _).length_le
  have h2 : ((l.dropWhile Char.isWhitespace).reverse.dropWhile
        Char.isWhitespace).length
      ≤ (l.dropWhile Char.isWhitespace).reverse.length :=
    (List.dropWhile_suffix _).length_le
  simp only [pyStrip, List.length_reverse] at *
  omega

theorem length_pySliceTo_le (l : List Char) (k : Int) (hk : 0 ≤ k) :
    (pySliceTo l k).length ≤ k.toNat := by
  simp only [pySliceTo, hk, if_true, List.length_take]
  omega

/-- Every branch of `_trim_tweet` stays within the budget once the budget
exceeds 20 characters. -/
theorem trimTweet_length_le (t : List Char) (L : Nat) (hL : 20 < L) :
    (trimTweet t L).length ≤ L := by
  rw [trimTweet]
  by_cases h1 : t.length ≤ L
  · rw [if_pos h1]; exact h1
  · rw [if_neg h1]
    simp only []
    set tags := (scanTags t).1.map (fun w => '#' :: w) with htags
    set body := pyStrip (scanTags t).2 with hbody
    set ht : List Char := if tags.isEmpty then [] else joinSpace tags with hht
    by_cases h2 : body.length + ht.length + 1 ≤ L
    · rw [if_pos h2]
      have hs := length_pyStrip_le (body ++ ' ' :: ht)
      simp only [List.length_append, List.length_cons] at hs
      omega
    · rw [if_neg h2]
      by_cases h3 : (20 : Int) < (L : Int) - ht.length - 1
      · rw [if_pos h3]
        have hslice := length_pySliceTo_le body ((L : Int) - ht.length - 1 - 3)
          (by omega)
        have hs := length_pyStrip_le
          ((pySliceTo body ((L : Int) - ht.length - 1 - 3) ++ ['.', '.', '.'])
            ++ ' ' :: ht)
        simp only [List.length_append, List.length_cons, List.length_nil] at hs
        omega
      · rw [if_neg h3]
        have hslice := length_pySliceTo_le t ((L : Int) - 3) (by omega)
        simp only [List.length_append, List.length_cons, List.length_nil]
        omega

/-- Trimming a text already within the limit returns it unchanged. -/
theorem trimTweet_short (x : List Char) (L : Nat) (h : x.length ≤ L) :
    trimTweet x L = x := by
  rw [trimTweet, if_pos h]

/-- C5: for every non-empty text and every budget above 20, the trimmed
result is no longer than the budget. -/
theorem trim_never_increases_length (t : List Char) (L : Nat)
    (hne : t ≠ []) (hL : 20 < L) : (trimTweet t L).length ≤ L :=
  trimTweet_length_le t L hL

/-- C5 witness at a concrete long tweet and budget 25. -/
theorem trim_never_increases_length_witness :
    "hello world #Tag1 #Tag2 this is a long tweet".toList ≠ []
      ∧ 20 < 25
      ∧ (trimTweet "hello world #Tag1 #Tag2 this is a long tweet".toList 25).length ≤ 25 :=
  ⟨by decide, by decide,
    trim_never_increases_length "hello world #Tag1 #Tag2 this is a long tweet".toList 25
      (by decide) (by decide)⟩

/-- C6: trimming at the 280-character platform limit is idempotent. -/
theorem trim_idempotent_at_280 (t : List Char) :
    trimTweet (trimTweet t 280) 280 = trimTweet t 280 :=
  trimTweet_short _ _ (trimTweet_length_le t 280 (by norm_num))

/-! ## Weighted selection (`helpers.weighted_random_choice`, `helpers.py:11-25`) -/

/-- The accumulation loop of `weighted_random_choice` (`helpers.py:19-23`):
walk the zipped items/weights keeping the running total, return the first
item whose cumulative weight reaches the draw `r`; `none` when the loop
falls through without returning. -/
def wrcGo {α : Type} (r : ℚ) : List (α × ℚ) → ℚ → Option α
  | [], _ => none
  | (item, w) :: rest, cumulative =>
    if r ≤ cumulative + w then some item else wrcGo r rest (cumulative + w)

/-- `weighted_random_choice` (`helpers.py:11-25`), with the draw
`random.uniform(0, total)` supplied as `r` and floats as rationals: raise
`ValueError` on a length mismatch, run the loop from 0, and fall back to
`items[-1]` after the loop (an `IndexError` on an empty list). -/
def weighted_random_choice {α : Type} (items : List α) (weights : List ℚ)
    (r : ℚ) : Except PyExc α :=
  if items.length ≠ weights.length then .error .valueError
  else
    match wrcGo r (items.zip weights) 0 with
    | some a => .ok a
    | none =>
      match items.getLast? with
      | some a => .ok a
      | none => .error .indexError

/-- Characterization of the loop: it yields the first pair whose cumulative
weight reaches `r`, or `none` together with the fact that no prefix does. -/
theorem wrcGo_spec {α : Type} (r : ℚ) (pairs : List (α × ℚ)) : ∀ c : ℚ,
    (∃ i, ∃ hi : i < pairs.length,
        wrcGo r pairs c = some (pairs.get ⟨i, hi⟩).1
          ∧ r ≤ c + ((pairs.map Prod.snd).take (i + 1)).sum
          ∧ ∀ j < i, c + ((pairs.map Prod.snd).take (j + 1)).sum < r)
      ∨ (wrcGo r pairs c = none
          ∧ ∀ j < pairs.length,
              c + ((pairs.map Prod.snd).take (j + 1)).sum < r) := by
  induction pairs with
  | nil =>
    intro c
    right
    exact ⟨rfl, fun j hj => absurd hj (Nat.not_lt_zero j)⟩
  | cons p rest ih =>
    intro c
    obtain ⟨item, w⟩ := p
    by_cases hr : r ≤ c + w
    · left
      refine ⟨0, Nat.succ_pos _, ?_, ?_, ?_⟩
      · simp [wrcGo, hr]
      · simpa using hr
      · intro j hj
        exact absurd hj (Nat.not_lt_zero j)
    · rcases ih (c + w) with ⟨i, hi, heq, hle, hlt⟩ | ⟨heq, hall⟩
      · left
        refine ⟨i + 1, Nat.succ_lt_succ hi, ?_, ?_, ?_⟩
        · simpa [wrcGo, hr] using heq
        · simpa [List.take_succ_cons, List.sum_cons, add_assoc] using hle
        · intro j hj
          match j with
          | 0 =>
            simpa using lt_of_not_le hr
          | Nat.succ k =>
            have hk : k < i := Nat.lt_of_succ_lt_succ hj
            simpa [List.take_succ_cons, List.sum_cons, add_assoc] using hlt k hk
      · right
        refine ⟨by simpa [wrcGo, hr] using heq, ?_⟩
        intro j hj
        match j with
        | 0 =>
          simpa using lt_of_not_le hr
        | Nat.succ k =>
          have hk : k < rest.length := Nat.lt_of_succ_lt_succ hj
          simpa [List.take_succ_cons, List.sum_cons, add_assoc] using hall k hk

/-- C8: for equal-length items/weights with a positive weight and a draw
`r ∈ [0, totalWeight]`, `weighted_random_choice` returns (without error)
the first item whose cumulative weight meets or exceeds `r`; and whenever
no cumulative prefix reaches the draw (possible only for a draw beyond the
exact total), it returns the last item. -/
theorem weighted_choice_first_hit {α : Type} (items : List α) (weights : List ℚ)
    (r : ℚ) (hlen : items.length = weights.length)
    (hpos : ∃ w ∈ weights, 0 < w) (hr0 : 0 ≤ r) (hrT : r ≤ weights.sum) :
    (∃ i, ∃ hi : i < items.length,
        weighted_random_choice items weights r = .ok (items.get ⟨i, hi⟩)
          ∧ r ≤ (weights.take (i + 1)).sum
          ∧ ∀ j < i, (weights.take (j + 1)).sum < r)
      ∧ ∀ r' : ℚ, (∀ j < items.length, (weights.take (j + 1)).sum < r') →
          ∃ a, items.getLast? = some a
            ∧ weighted_random_choice items weights r' = .ok a := by
  have hwne : weights ≠ [] := by
    rcases hpos with ⟨w, hw, -⟩
    exact List.ne_nil_of_mem hw
  have hine : items ≠ [] := by
    intro h
    apply hwne
    have : weights.length = 0 := by rw [← hlen, h]; rfl
    exact List.eq_nil_of_length_eq_zero this
  have hzlen : (items.zip weights).length = items.length := by
    rw [List.length_zip, hlen, Nat.min_self]
  have hmap : (items.zip weights).map Prod.snd = weights :=
    List.map_snd_zip items weights (le_of_eq hlen.symm)
  have hif : ¬(items.length ≠ weights.length) := by simp [hlen]
  constructor
  · rcases wrcGo_spec r (items.zip weights) 0 with ⟨i, hi, heq, hle, hlt⟩ | ⟨-, hall⟩
    · refine ⟨i, by omega, ?_, ?_, ?_⟩
      · simp only [weighted_random_choice, hif, if_false, heq]
        congr 1
        have hgz : (items.zip weights).get ⟨i, hi⟩
            = (items.get ⟨i, by omega⟩, weights.get ⟨i, by rw [← hlen]; omega⟩) := by
          simp [List.get_eq_getElem, List.getElem_zip]
        rw [hgz]
      · rw [hmap] at hle
        simpa using hle
      · intro j hj
        have := hlt j hj
        rw [hmap] at this
        simpa using this
    · exfalso
      have hlast : items.length - 1 < (items.zip weights).length := by
        have : 0 < items.length := List.length_pos.mpr hine
        omega
      have := hall (items.length - 1) hlast
      rw [hmap] at this
      have hone : items.length - 1 + 1 = weights.length := by
        have : 0 < items.length := List.length_pos.mpr hine
        omega
      rw [hone, List.take_length] at this
      simp only [zero_add] at this
      exact absurd hrT (not_le.mpr this)
  · intro r' hall
    rcases wrcGo_spec r' (items.zip weights) 0 with ⟨i, hi, heq, hle, hlt⟩ | ⟨heq, -⟩
    · exfalso
      have := hall i (by omega)
      rw [hmap] at hle
      simp only [zero_add] at hle
      exact absurd hle (not_le.mpr this)
    · refine ⟨items.getLast hine, List.getLast?_eq_getLast _ hine, ?_⟩
      simp only [weighted_random_choice, hif, if_false, heq,
        List.getLast?_eq_getLast _ hine]

/-- C8 witness: items `["a","b"]`, weights `[1,3]`, draw `2` — the first
item whose cumulative weight (`1`, then `4`) reaches `2` is `"b"`. -/
theorem weighted_choice_first_hit_witness :
    ∃ i, ∃ hi : i < (["a", "b"] : List String).length,
      weighted_random_choice ["a", "b"] [(1 : ℚ), 3] 2
          = .ok ((["a", "b"] : List String).get ⟨i, hi⟩)
        ∧ (2 : ℚ) ≤ (([(1 : ℚ), 3]).take (i + 1)).sum
        ∧ ∀ j < i, (([(1 : ℚ), 3]).take (j + 1)).sum < 2 :=
  (weighted_choice_first_hit ["a", "b"] [(1 : ℚ), 3] 2 rfl
    ⟨1, by simp, by norm_num⟩ (by norm_num) (by norm_num [List.sum_cons])).1

/-! ## Content generators (`crypto_generator.py`, `funny_generator.py`)

`random.choice` is modelled by an index oracle (`pyChoice l i` picks
`l[i % len(l)]`, standing for an arbitrary uniform pick), `random.shuffle`
by the reordering it produced (a list the caller promises to be a
permutation of the shuffled one), and `random.randint(1, 3)` by a count
oracle.  The state returned by `generate` is the generator's stored data
pool after the call, which is where Python's aliasing matters:
`CryptoGenerator._get_random_hashtags` shuffles `self.data['hashtags'].copy()`
— a fresh list — while `FunnyGenerator.generate` shuffles the very list
object stored in `self.hashtag_map` whenever the chosen category is one of
its keys. -/

/-- Index-oracle model of `random.choice`. -/
def pyChoice {α : Type} [Inhabited α] (l : List α) (i : Nat) : α :=
  l.getD (i % l.length) default

/-- `str.strip()` on `String`. -/
def pyStripStr (s : String) : String := String.mk (pyStrip s.toList)

/-- The data pool `CryptoGenerator.__init__` loads from
`crypto_topics.json`: topics, templates and hashtags. -/
structure CryptoData where
  topics : List String
  templates : List String
  hashtags : List String
  deriving DecidableEq, Repr

/-- `CryptoGenerator._get_random_hashtags` (`crypto_generator.py:25-29`):
shuffle a `.copy()` of the stored hashtag list (the shuffle outcome on the
copy is `shuffled`) and return its first `min count len` elements. -/
def get_random_hashtags (shuffled : List String) (count : Nat) : List String :=
  shuffled.take (min count shuffled.length)

/-- `CryptoGenerator.generate` (`crypto_generator.py:12-23`); the second
component is the stored data pool after the call. -/
def cryptoGenerate (data : CryptoData) (ti tei hi : Nat)
    (shuffled : List String) : String × CryptoData :=
  let topic := pyChoice data.topics ti
  let template := pyChoice data.templates tei
  let hashtag := pyChoice data.hashtags hi
  let tweet := (template.replace "{topic}" topic).replace "{hashtag}" hashtag
  let additional := get_random_hashtags shuffled 3
  let tweet := tweet ++ " " ++ String.intercalate " " additional
  (pyStripStr tweet, data)

/-- The data pool `FinanceGenerator.__init__` loads from
`finance_quotes.json`: quotes as `{text, author}` pairs (first component
the text, second the author), tips and statistics. -/
structure FinanceData where
  quotes : List (String × String)
  tips : List String
  statistics : List String
  deriving DecidableEq, Repr

/-- `FinanceGenerator.generate` (`finance_generator.py:12-26`): one
uniform draw `rand` (`random.random()`) against the cumulative thresholds
0.4 and 0.7 selects quote, tip or statistic; every branch only reads the
pool, so the returned state is the pool itself. -/
def financeGenerate (data : FinanceData) (rand : ℚ) (qi ti si : Nat) :
    String × FinanceData :=
  if rand < 4/10 then
    let quote := pyChoice data.quotes qi
    ("\"" ++ quote.1 ++ "\" — " ++ quote.2 ++ "\n\n#Finance #Investing #Money",
      data)
  else if rand < 7/10 then
    let tip := pyChoice data.tips ti
    ("💰 Financial Tip: " ++ tip
      ++ "\n\n#FinancialFreedom #MoneyTips #PersonalFinance", data)
  else
    let stat := pyChoice data.statistics si
    ("📊 Did you know? " ++ stat ++ "\n\n#FinanceFacts #Economics #Investing",
      data)

/-- The state of a `SocialGenerator`: the pool loaded from
`social_topics.json` plus the `self.discussion_starters` constructor
literal of `social_generator.py:12-19`. -/
structure SocialData where
  topics : List String
  questions : List String
  insights : List String
  discussion_starters : List String
  deriving DecidableEq, Repr

/-- The `self.discussion_starters` literal of `social_generator.py:12-19`. -/
def socialInitDiscussionStarters : List String :=
  ["What\x27s the most positive change you\x27ve seen in social media lately?",
   "How has technology changed the way we form communities?",
   "What\x27s one social norm you wish would change?",
   "How do you balance online and offline social interactions?",
   "What role should social media play in society?",
   "How can we build better online communities?"]

/-- `SocialGenerator.generate` (`social_generator.py:21-36`): one uniform
draw against the thresholds 0.3 and 0.6 selects topic+question, insight or
discussion starter; every branch only reads the pool. -/
def socialGenerate (data : SocialData) (rand : ℚ) (i1 i2 : Nat) :
    String × SocialData :=
  if rand < 3/10 then
    let topic := pyChoice data.topics i1
    let question := pyChoice data.questions i2
    (topic ++ "\n\n" ++ question ++ "\n\n#SocialMedia #Society #Discussion",
      data)
  else if rand < 6/10 then
    let insight := pyChoice data.insights i1
    ("🧠 Social Insight: " ++ insight
      ++ "\n\n#Sociology #HumanBehavior #Psychology", data)
  else
    let starter := pyChoice data.discussion_starters i1
    ("💭 Discussion: " ++ starter
      ++ "\n\n#SocialDiscussion #Community #Thoughts", data)

/-- The state of a `FunnyGenerator`: the joke pool loaded from
`jokes.json` (keyed by category) and the hashtag map literal of
`funny_generator.py:12-17`. -/
structure FunnyData where
  jokes : List (String × List String)
  hashtag_map : List (String × List String)
  deriving DecidableEq, Repr

/-- The `self.hashtag_map` literal of `funny_generator.py:12-17`. -/
def funnyInitHashtagMap : List (String × List String) :=
  [("programming", ["#Programming", "#TechJokes", "#DeveloperHumor", "#Coding"]),
   ("general", ["#Funny", "#Joke", "#Laugh", "#Humor"]),
   ("puns", ["#Puns", "#Wordplay", "#DadJokes"]),
   ("crypto", ["#CryptoHumor", "#BitcoinJokes", "#BlockchainJokes"])]

/-- Replace the value stored under an existing key (Python's in-place list
mutation seen through the dict). -/
def updateAssoc (m : List (String × List String)) (k : String)
    (v : List String) : List (String × List String) :=
  match m with
  | [] => []
  | (k', v') :: rest =>
      if k' = k then (k', v) :: rest else (k', v') :: updateAssoc rest k v

/-- `FunnyGenerator.generate` (`funny_generator.py:19-30`).
`hashtags = self.hashtag_map.get(category, ['#Funny', '#Humor'])` aliases
the stored list when `category` is a key, so `random.shuffle(hashtags)`
reorders the stored pool itself; with the default, a fresh literal is
shuffled and no stored state changes. -/
def funnyGenerate (st : FunnyData) (ci ji : Nat) (shuffled : List String)
    (selCount : Nat) : String × FunnyData :=
  let categories := st.jokes.map Prod.fst
  let category := pyChoice categories ci
  let joke := pyChoice ((List.lookup category st.jokes).getD []) ji
  let selected := shuffled.take selCount
  let text := joke ++ "\n\n" ++ String.intercalate " " selected
  let newMap := if (List.lookup category st.hashtag_map).isSome then
      updateAssoc st.hashtag_map category shuffled
    else st.hashtag_map
  (text, { st with hashtag_map := newMap })

/-- C2 counterexample: a single `generate()` on a `FunnyGenerator` with the
constructor's hashtag map, in which the shuffle of the selected
`"programming"` entry swapped its first two elements, leaves the stored
data pool changed — and that shuffle outcome is a genuine permutation of
the stored list, so a real execution produces it. -/
theorem funny_generate_mutates_pool :
    (funnyGenerate
        { jokes := [("programming", ["my joke"])],
          hashtag_map := funnyInitHashtagMap } 0 0
        ["#TechJokes", "#Programming", "#DeveloperHumor", "#Coding"] 2).2
      ≠ { jokes := [("programming", ["my joke"])],
          hashtag_map := funnyInitHashtagMap }
      ∧ List.Perm ["#TechJokes", "#Programming", "#DeveloperHumor", "#Coding"]
          ["#Programming", "#TechJokes", "#DeveloperHumor", "#Coding"] := by
  constructor
  · decide
  · decide

theorem lookup_updateAssoc_other (m : List (String × List String))
    (k c : String) (v : List String) (hc : c ≠ k) :
    List.lookup c (updateAssoc m k v) = List.lookup c m := by
  induction m with
  | nil => rfl
  | cons p rest ih =>
    obtain ⟨k', v'⟩ := p
    by_cases hk : k' = k
    · subst hk
      have hbeq : (c == k') = false := by
        simp [hc]
      simp [updateAssoc, List.lookup, hbeq]
    · simp [updateAssoc, hk, List.lookup, ih]

theorem lookup_updateAssoc_self (m : List (String × List String))
    (k : String) (v : List String) :
    List.lookup k (updateAssoc m k v)
      = if (List.lookup k m).isSome then some v else none := by
  induction m with
  | nil => rfl
  | cons p rest ih =>
    obtain ⟨k', v'⟩ := p
    by_cases hk : k' = k
    · subst hk
      simp [updateAssoc, List.lookup]
    · have hbeq : (k == k') = false := by
        simp [Ne.symm hk]
      simp only [updateAssoc, if_neg hk, List.lookup, hbeq, ih]

/-- Element-preservation of an optional stored list across a call. -/
def optionPerm : Option (List String) → Option (List String) → Prop
  | none, none => True
  | some a, some b => List.Perm a b
  | _, _ => False

/-- C2 (amended): of the four content generators, three —
`CryptoGenerator.generate` (which shuffles a copy),
`FinanceGenerator.generate` and `SocialGenerator.generate` (which only
read their pools) — leave their stored data pool unchanged by every call;
`FunnyGenerator.generate` leaves the joke pool and every non-selected
hashtag entry unchanged, but reorders the selected category's stored
hashtag list in place — state shared across calls — preserving its
elements as a multiset whenever the shuffle outcome is a genuine
permutation of what it shuffled. -/
theorem generators_pool_effect (cd : CryptoData) (fd : FunnyData)
    (fin : FinanceData) (sd : SocialData)
    (ti tei hi ci ji selCount qi tpi sti i1 i2 : Nat) (frand srand : ℚ)
    (cshuf fshuf : List String)
    (hperm : List.Perm fshuf
      ((List.lookup (pyChoice (fd.jokes.map Prod.fst) ci) fd.hashtag_map).getD
        ["#Funny", "#Humor"])) :
    (cryptoGenerate cd ti tei hi cshuf).2 = cd
      ∧ (financeGenerate fin frand qi tpi sti).2 = fin
      ∧ (socialGenerate sd srand i1 i2).2 = sd
      ∧ (funnyGenerate fd ci ji fshuf selCount).2.jokes = fd.jokes
      ∧ (∀ c : String, c ≠ pyChoice (fd.jokes.map Prod.fst) ci →
          List.lookup c (funnyGenerate fd ci ji fshuf selCount).2.hashtag_map
            = List.lookup c fd.hashtag_map)
      ∧ optionPerm
          (List.lookup (pyChoice (fd.jokes.map Prod.fst) ci)
            (funnyGenerate fd ci ji fshuf selCount).2.hashtag_map)
          (List.lookup (pyChoice (fd.jokes.map Prod.fst) ci) fd.hashtag_map) := by
  set sel := pyChoice (fd.jokes.map Prod.fst) ci with hsel
  refine ⟨rfl, ?_, ?_, rfl, ?_, ?_⟩
  · unfold financeGenerate
    split_ifs <;> rfl
  · unfold socialGenerate
    split_ifs <;> rfl
  · intro c hc
    show List.lookup c (if (List.lookup sel fd.hashtag_map).isSome then
        updateAssoc fd.hashtag_map sel fshuf
      else fd.hashtag_map) = List.lookup c fd.hashtag_map
    by_cases hsome : (List.lookup sel fd.hashtag_map).isSome
    · rw [if_pos hsome, lookup_updateAssoc_other _ _ _ _ hc]
    · rw [if_neg hsome]
  · show optionPerm (List.lookup sel (if (List.lookup sel fd.hashtag_map).isSome then
        updateAssoc fd.hashtag_map sel fshuf
      else fd.hashtag_map)) (List.lookup sel fd.hashtag_map)
    rcases hlook : List.lookup sel fd.hashtag_map with _ | l
    · rw [if_neg (by simp [hlook]), hlook]
      trivial
    · rw [if_pos (by simp [hlook]), lookup_updateAssoc_self, hlook]
      simp only [Option.isSome_some, if_true]
      show List.Perm fshuf l
      rw [hlook] at hperm
      simpa using hperm

/-- C2 amended-theorem witness at concrete generator states with a
concrete permutation as the shuffle outcome. -/
theorem generators_pool_effect_witness :
    (cryptoGenerate
        { topics := ["Bitcoin"], templates := ["Talk {topic} {hashtag}"],
          hashtags := ["#BTC"] } 0 0 0 ["#BTC"]).2
      = { topics := ["Bitcoin"], templates := ["Talk {topic} {hashtag}"],
          hashtags := ["#BTC"] }
      ∧ (financeGenerate
          { quotes := [("Buy low.", "Anon")], tips := ["Save first."],
            statistics := ["42% save."] } (1/2) 0 0 0).2
        = { quotes := [("Buy low.", "Anon")], tips := ["Save first."],
            statistics := ["42% save."] } :=
  have h := generators_pool_effect
    { topics := ["Bitcoin"], templates := ["Talk {topic} {hashtag}"],
      hashtags := ["#BTC"] }
    { jokes := [("general", ["j"])], hashtag_map := funnyInitHashtagMap }
    { quotes := [("Buy low.", "Anon")], tips := ["Save first."],
      statistics := ["42% save."] }
    { topics := ["Community"], questions := ["Why?"],
      insights := ["People adapt."],
      discussion_starters := socialInitDiscussionStarters }
    0 0 0 0 0 2 0 0 0 0 0 (1/2) (1/2)
    ["#BTC"] ["#Joke", "#Funny", "#Laugh", "#Humor"] (by decide)
  ⟨h.1, h.2.1⟩

end AutoTweet
